import Mathlib

/-!
Verification of the fund-report ingestion backend (table parser, document
pipeline, vector store, query engine) against its natural-language
specification.  Python strings are modelled as `List Char`, Python `float`
values as exact rationals (`Rat`; every numeric literal the claims mention is
exactly representable), database rows as Lean structures, and the fallible
external collaborators (PDF conversion, embedding, vector insertion, status
persistence) as explicit `Except`/injection parameters.
-/

/-! ## String utilities (Python `str` operations on `List Char`) -/

/-- Python `str.lower()` (ASCII case folding suffices for the header keywords). -/
def lowerStr (s : List Char) : List Char := s.map Char.toLower

/-- Python `str.strip()`: drop whitespace from both ends. -/
def pyStrip (s : List Char) : List Char :=
  ((s.dropWhile Char.isWhitespace).reverse.dropWhile Char.isWhitespace).reverse

/-- Does `p` occur as a prefix of `s` (character-by-character)? -/
def startsWithL : List Char → List Char → Bool
  | [], _ => true
  | _ :: _, [] => false
  | a :: as, b :: bs => a == b && startsWithL as bs

/-- Python `needle in hay`: `needle` occurs as a contiguous substring of `hay`. -/
def containsSeq (needle : List Char) : List Char → Bool
  | [] => startsWithL needle []
  | b :: bs => startsWithL needle (b :: bs) || containsSeq needle bs

/-- Numeric value of a digit string (most significant first). -/
def digitsVal (ds : List Char) : Nat :=
  ds.foldl (fun a c => 10 * a + (c.toNat - 48)) 0

/-- Python `text.split "\n\n"`: split on each non-overlapping occurrence of a
blank line, scanning left to right. -/
def splitOn2NL (acc : List Char) : List Char → List (List Char)
  | '\n' :: '\n' :: rest => acc.reverse :: splitOn2NL [] rest
  | c :: rest => splitOn2NL (c :: acc) rest
  | [] => [acc.reverse]

/-! ## Table parser (`app/services/table_parser.py`) -/

/-- Result of `TableParser._classify_table`. -/
inductive TableType where
  | capital_call
  | distribution
  | adjustment
deriving DecidableEq, Repr

/-- A `datetime.date` value produced by `datetime.strptime(...).date()`. -/
structure PyDate where
  year : Nat
  month : Nat
  day : Nat
deriving DecidableEq, Repr

/-- The three ledger-row ORM models (`app.models.transaction`) as inserted by
`TableParser.parse_table`; `fund_id` is the nullable foreign key. -/
inductive LedgerRow where
  | capitalCall (fund_id : Option Nat) (call_date : Option PyDate)
      (call_type : List Char) (amount : Rat) (description : List Char)
  | distributionRow (fund_id : Option Nat) (distribution_date : Option PyDate)
      (distribution_type : List Char) (amount : Rat) (is_recallable : Bool)
      (description : List Char)
  | adjustmentRow (fund_id : Option Nat) (adjustment_date : Option PyDate)
      (adjustment_type : List Char) (amount : Rat)
      (is_contribution_adjustment : Bool) (description : List Char)
deriving DecidableEq, Repr

/-- The `fund_id` column of a ledger row. -/
def LedgerRow.fundId : LedgerRow → Option Nat
  | .capitalCall f _ _ _ _ => f
  | .distributionRow f _ _ _ _ _ => f
  | .adjustmentRow f _ _ _ _ _ => f

/-- `TableParser._parse_bool`: `value.strip().lower() == "yes" if value else False`. -/
def parse_bool (value : List Char) : Bool :=
  if value.isEmpty then false else lowerStr (pyStrip value) == ("yes").data

/-- `TableParser._classify_table`: keyword-driven classification of a header list. -/
def classify_table (headers : List (List Char)) : TableType :=
  let headers_lower := headers.map lowerStr
  if headers_lower.any (fun h => containsSeq ("call number").data h) then
    .capital_call
  else if headers_lower.any (fun h => containsSeq ("type").data h) &&
      headers_lower.any (fun h => containsSeq ("amount").data h) then
    if headers_lower.any (fun h => containsSeq ("recallable").data h) then
      .distribution
    else
      .adjustment
  else
    .adjustment

/-- One numeric field of a `strptime` format (`%m`, `%d`): the whole maximal
digit run at the head of the input must have 1 or 2 digits and a value in
`[lo, hi]`; returns the value and the rest of the input.  (With a non-digit
delimiter or end-of-string after the field, CPython's regex alternations plus
backtracking accept exactly these runs.) -/
def matchNum2 (lo hi : Nat) (s : List Char) : Option (Nat × List Char) :=
  let ds := s.takeWhile Char.isDigit
  let rest := s.dropWhile Char.isDigit
  let n := digitsVal ds
  if 1 ≤ ds.length ∧ ds.length ≤ 2 ∧ lo ≤ n ∧ n ≤ hi then some (n, rest) else none

/-- The `%Y` field of a `strptime` format: CPython's pattern is exactly four
digits (`\d\d\d\d`), so the maximal digit run must have length 4. -/
def matchYear4 (s : List Char) : Option (Nat × List Char) :=
  let ds := s.takeWhile Char.isDigit
  let rest := s.dropWhile Char.isDigit
  if ds.length = 4 then some (digitsVal ds, rest) else none

/-- A literal character of a `strptime` format. -/
def matchLit (c : Char) : List Char → Option (List Char)
  | x :: xs => if x == c then some xs else none
  | [] => none

/-- Gregorian leap-year rule used by `datetime.date`. -/
def isLeapYear (y : Nat) : Bool :=
  (y % 4 == 0 && y % 100 != 0) || y % 400 == 0

/-- Days in a month, as validated by the `datetime.date` constructor. -/
def daysInMonth (y m : Nat) : Nat :=
  if m = 2 then (if isLeapYear y then 29 else 28)
  else if m = 4 ∨ m = 6 ∨ m = 9 ∨ m = 11 then 30
  else 31

/-- The `datetime.date(y, m, d)` constructor: `ValueError` (here `none`) unless
`1 ≤ y ≤ 9999`, `1 ≤ m ≤ 12` and `1 ≤ d ≤ daysInMonth y m`. -/
def mkDate (y m d : Nat) : Option PyDate :=
  if 1 ≤ y ∧ y ≤ 9999 ∧ 1 ≤ m ∧ m ≤ 12 ∧ 1 ≤ d ∧ d ≤ daysInMonth y m then
    some ⟨y, m, d⟩
  else none

/-- `datetime.strptime(s, "%Y-%m-%d")`, requiring the whole string consumed. -/
def strptimeYMD (s : List Char) : Option PyDate := do
  let (y, r1) ← matchYear4 s
  let r2 ← matchLit '-' r1
  let (m, r3) ← matchNum2 1 12 r2
  let r4 ← matchLit '-' r3
  let (d, r5) ← matchNum2 1 31 r4
  if r5.isEmpty then mkDate y m d else none

/-- `datetime.strptime(s, "%d-%m-%Y")`, requiring the whole string consumed. -/
def strptimeDMY (s : List Char) : Option PyDate := do
  let (d, r1) ← matchNum2 1 31 s
  let r2 ← matchLit '-' r1
  let (m, r3) ← matchNum2 1 12 r2
  let r4 ← matchLit '-' r3
  let (y, r5) ← matchYear4 r4
  if r5.isEmpty then mkDate y m d else none

/-- `datetime.strptime(s, "%m/%d/%Y")`, requiring the whole string consumed. -/
def strptimeMDY (s : List Char) : Option PyDate := do
  let (m, r1) ← matchNum2 1 12 s
  let r2 ← matchLit '/' r1
  let (d, r3) ← matchNum2 1 31 r2
  let r4 ← matchLit '/' r3
  let (y, r5) ← matchYear4 r4
  if r5.isEmpty then mkDate y m d else none

/-- `TableParser._parse_date`: empty string gives `None`; otherwise try the
three formats in order on the stripped string, first success wins. -/
def parse_date (date_str : List Char) : Option PyDate :=
  if date_str.isEmpty then none
  else
    match strptimeYMD (pyStrip date_str) with
    | some d => some d
    | none =>
      match strptimeDMY (pyStrip date_str) with
      | some d => some d
      | none => strptimeMDY (pyStrip date_str)

/-- The character filter of `re.sub(r"[^\d.-]", "", value)`. -/
def keepAmountChar (c : Char) : Bool :=
  c.isDigit || c == '.' || c == '-'

/-- `re.sub(r"[^\d.-]", "", value)`: strip every character that is not a
digit, `.` or `-`. -/
def stripAmount (s : List Char) : List Char := s.filter keepAmountChar

/-- Python `float(s)` for a string made only of digits, `.` and `-`: an
unsigned literal is a digit run with at most one dot and at least one digit;
returns the exact value as numerator and denominator (`n / 10^frac-len`). -/
def parseUnsignedParts (s : List Char) : Option (Int × Nat) :=
  let ip := s.takeWhile (fun c => c != '.')
  match s.dropWhile (fun c => c != '.') with
  | [] =>
    if ip.isEmpty || !ip.all Char.isDigit then none
    else some (((digitsVal ip : Nat) : Int), 1)
  | _ :: fp =>
    if ip.all Char.isDigit && fp.all Char.isDigit && !(ip.isEmpty && fp.isEmpty) then
      some (((digitsVal (ip ++ fp) : Nat) : Int), 10 ^ fp.length)
    else none

/-- Python `float(s)` on the stripped amount string: optional leading minus
sign, then an unsigned float literal; anything else raises `ValueError`.  The
value is the exact decimal rational. -/
def pyFloatOfString (s : List Char) : Option Rat :=
  match s with
  | '-' :: rest => (parseUnsignedParts rest).map (fun p => mkRat (-p.1) p.2)
  | _ => (parseUnsignedParts s).map (fun p => mkRat p.1 p.2)

/-- `TableParser._parse_amount`: strip non-`[0-9.-]` characters, parse as a
float, and return `0.0` on `ValueError`. -/
def parse_amount (value : List Char) : Rat :=
  match pyFloatOfString (stripAmount value) with
  | some r => r
  | none => 0

/-- One row-to-model mapping step of `TableParser.parse_table` (the body of the
`try` block for one row): cell accesses that would raise `IndexError` make the
whole row fail (`none`), matching the `except Exception` handler. -/
def mapRow (table_type : TableType) (fund_id : Option Nat)
    (row : List (List Char)) : Option LedgerRow :=
  match table_type with
  | .capital_call => do
    let c0 ← row.get? 0
    let c1 ← row.get? 1
    let c2 ← row.get? 2
    pure (.capitalCall fund_id (parse_date c0)
      (if c1.isEmpty then [] else c1) (parse_amount c2)
      ((row.get? 3).getD []))
  | .distribution => do
    let c0 ← row.get? 0
    let c1 ← row.get? 1
    let c2 ← row.get? 2
    let c3 ← row.get? 3
    pure (.distributionRow fund_id (parse_date c0)
      (if c1.isEmpty then [] else c1) (parse_amount c2) (parse_bool c3)
      ((row.get? 4).getD []))
  | .adjustment => do
    let c0 ← row.get? 0
    let c1 ← row.get? 1
    let c2 ← row.get? 2
    pure (.adjustmentRow fund_id (parse_date c0)
      (if c1.isEmpty then [] else c1) (parse_amount c2)
      (if row.length > 4 then parse_bool ((row.get? 3).getD []) else false)
      (if row.length > 5 then (row.get? 4).getD [] else []))

/-- A table as handed to `TableParser.parse_table`: the `{headers, rows}`
dictionary built by `DocumentProcessor.process_document`. -/
structure PTable where
  headers : List (List Char)
  rows : List (List (List Char))
deriving DecidableEq, Repr

/-- One iteration of the row loop of `TableParser.parse_table`: skip the row
when its cell count differs from the header count, otherwise map it (adding
the model row and counting it) unless its field accesses raise. -/
def parse_table_step (table_type : TableType) (fund_id : Option Nat)
    (headers : List (List Char)) (acc : List LedgerRow × Nat)
    (row : List (List Char)) : List LedgerRow × Nat :=
  if row.length ≠ headers.length then acc
  else
    match mapRow table_type fund_id row with
    | some lr => (acc.1 ++ [lr], acc.2 + 1)
    | none => acc

/-- `TableParser.parse_table`: classify by (lowered) headers, skip rows whose
cell count differs from the header count, map the rest, and return the list of
rows added to the session together with the success count. -/
def parse_table (fund_id : Option Nat) (table : PTable) : List LedgerRow × Nat :=
  let headers := table.headers.map lowerStr
  let rows := table.rows
  let table_type := classify_table headers
  rows.foldl (parse_table_step table_type fund_id headers) ([], 0)

/-! ## Document processor (`app/services/document_processor.py`) -/

/-- One docling table cell as consumed by `process_document` (the
`start_col_offset_idx` field is recorded in the row buckets but never used for
ordering). -/
structure TableCell where
  start_row_offset_idx : Nat
  start_col_offset_idx : Nat
  text : List Char
  column_header : Bool
deriving DecidableEq, Repr

/-- The sorted list of distinct row indices of `rows_data`
(`sorted(rows_data.keys())`). -/
def sortedRowKeys (cells : List TableCell) : List Nat :=
  ((cells.map (fun c => c.start_row_offset_idx)).dedup).insertionSort (· ≤ ·)

/-- The per-key step of the cell loop in `process_document`: append the
header-flagged cells of row 0 to `headers`, collect non-header cells into a
row buffer, and keep the buffer only for keys greater than 0. -/
def extractStep (cells : List TableCell)
    (acc : List (List Char) × List (List (List Char))) (row_idx : Nat) :
    List (List Char) × List (List (List Char)) :=
  let row_cells := cells.filter (fun c => c.start_row_offset_idx == row_idx)
  let hs := (row_cells.filter (fun c => c.column_header && row_idx == 0)).map
    (fun c => c.text)
  let row := (row_cells.filter (fun c => !c.column_header)).map (fun c => c.text)
  (acc.1 ++ hs, if row_idx > 0 then acc.2 ++ [row] else acc.2)

/-- The `{headers, rows}` extraction loop of `process_document` over one
table's cells. -/
def extractCells (cells : List TableCell) : PTable :=
  let p := (sortedRowKeys cells).foldl (extractStep cells) ([], [])
  ⟨p.1, p.2⟩

/-- A docling table: `table.data` may be absent (`None`), in which case the
table contributes empty headers and rows. -/
structure DoclingTable where
  data : Option (List TableCell)
deriving DecidableEq, Repr

/-- `process_document`'s per-table extraction, including the `table.data` guard. -/
def extractTable (t : DoclingTable) : PTable :=
  match t.data with
  | none => ⟨[], []⟩
  | some cells => extractCells cells

/-- A provenance entry of a docling text item. -/
structure ProvItem where
  page_no : Nat
deriving DecidableEq, Repr

/-- A docling text item with its page provenance. -/
structure TextItem where
  text : List Char
  prov : List ProvItem
deriving DecidableEq, Repr

/-- The docling document object exposed by the converter: page numbers in
dictionary order, text items, and tables. -/
structure DoclingDoc where
  pages : List Nat
  texts : List TextItem
  tables : List DoclingTable
deriving DecidableEq, Repr

/-- A `{page_number, text}` block fed to `_chunk_text`. -/
structure TextBlock where
  page_number : Nat
  text : List Char
deriving DecidableEq, Repr

/-- A chunk produced by `_chunk_text`: paragraph text plus page metadata. -/
structure Chunk where
  text : List Char
  page : Nat
deriving DecidableEq, Repr

/-- `DocumentProcessor._chunk_text`: split each block on blank lines, keep the
non-empty stripped paragraphs, each carrying its page number. -/
def chunk_text (text_blocks : List TextBlock) : List Chunk :=
  text_blocks.foldl
    (fun acc block =>
      acc ++ ((splitOn2NL [] block.text).map pyStrip).filterMap
        (fun para => if para.isEmpty then none else some ⟨para, block.page_number⟩))
    []

/-- The group shapes of the five fund-info regex patterns. -/
inductive GroupPat where
  | restOfLine
  | fourDigits
  | dollarDigits
deriving DecidableEq, Repr

/-- Match `\s*(.+)` at the head of the input and return the group: greedy
whitespace first, backtracking until `(.+)` can start on a non-newline
character; `(.+)` then extends to the end of the line. -/
def wsDotPlus : List Char → Option (List Char)
  | [] => none
  | c :: cs =>
    if c.isWhitespace then
      match wsDotPlus cs with
      | some g => some g
      | none =>
        if c != '\n' then some ((c :: cs).takeWhile (fun x => x != '\n')) else none
    else some ((c :: cs).takeWhile (fun x => x != '\n'))

/-- Match `\s*(\d{4})` at the head of the input and return the group. -/
def wsFourDigits (s : List Char) : Option (List Char) :=
  match s.dropWhile Char.isWhitespace with
  | a :: b :: c :: d :: _ =>
    if a.isDigit && b.isDigit && c.isDigit && d.isDigit then some [a, b, c, d]
    else none
  | _ => none

/-- Match `\s*\$([\d,]+)` at the head of the input and return the group. -/
def wsDollarDigits (s : List Char) : Option (List Char) :=
  match s.dropWhile Char.isWhitespace with
  | '$' :: rest =>
    let g := rest.takeWhile (fun c => c.isDigit || c == ',')
    if g.isEmpty then none else some g
  | _ => none

/-- Match one fund-info pattern (`literal` followed by its group shape) at the
head of the input. -/
def matchPatAt (lit : List Char) (g : GroupPat) (s : List Char) : Option (List Char) :=
  if startsWithL lit s then
    let rest := s.drop lit.length
    match g with
    | .restOfLine => wsDotPlus rest
    | .fourDigits => wsFourDigits rest
    | .dollarDigits => wsDollarDigits rest
  else none

/-- `re.search`: try the pattern at each start position, leftmost match wins. -/
def reSearch (lit : List Char) (g : GroupPat) : List Char → Option (List Char)
  | [] => matchPatAt lit g []
  | c :: cs =>
    match matchPatAt lit g (c :: cs) with
    | some r => some r
    | none => reSearch lit g cs

/-- The dictionary built by `_parse_fund_info_from_text` (all five keys are
always present; `none` stands for Python `None`). -/
structure FundInfo where
  name : Option (List Char)
  gp : Option (List Char)
  vintage_year : Option Nat
  fund_size : Option Nat
  report_date : Option (List Char)
deriving DecidableEq, Repr

/-- `DocumentProcessor._parse_fund_info_from_text`: run the five regex
searches in dictionary order; `int(...)` on an all-comma fund-size group
raises `ValueError`, which propagates out of the method. -/
def parse_fund_info_from_text (text : List Char) :
    Except (List Char) FundInfo := do
  let name := (reSearch ("Fund Name:").data .restOfLine text).map pyStrip
  let gp := (reSearch ("GP:").data .restOfLine text).map pyStrip
  let vintage_year ←
    match reSearch ("Vintage Year:").data .fourDigits text with
    | none => pure (none : Option Nat)
    | some v => pure (some (digitsVal (pyStrip v)))
  let fund_size ←
    match reSearch ("Fund Size:").data .dollarDigits text with
    | none => pure (none : Option Nat)
    | some v =>
      let ds := (pyStrip v).filter (fun c => c != ',')
      if ds.isEmpty then Except.error ("invalid literal for int()").data
      else pure (some (digitsVal ds))
  let report_date := (reSearch ("Report Date:").data .restOfLine text).map pyStrip
  pure ⟨name, gp, vintage_year, fund_size, report_date⟩

/-- Python truthiness of one extracted fund-info value. -/
def truthyStr : Option (List Char) → Bool
  | some s => !s.isEmpty
  | none => false

/-- Python truthiness of one extracted integer value. -/
def truthyNat : Option Nat → Bool
  | some n => n != 0
  | none => false

/-- `any(fund_info.values())`. -/
def fundInfoAny (i : FundInfo) : Bool :=
  truthyStr i.name || truthyStr i.gp || truthyNat i.vintage_year ||
    truthyNat i.fund_size || truthyStr i.report_date

/-- A row of the `funds` table (`app/models/fund.py`); `name` is declared
`nullable=False`. -/
structure FundRow where
  id : Nat
  name : Option (List Char)
  gp_name : Option (List Char)
  vintage_year : Option Nat
  fund_size : Option Nat
deriving DecidableEq, Repr

/-- `DocumentProcessor._get_or_create_fund`: look the fund up by exact name
(SQL `name = NULL` matches nothing), otherwise insert a new row with the fresh
id `nid`; inserting a `NULL` name violates the `NOT NULL` constraint and the
commit raises. -/
def get_or_create_fund (funds : List FundRow) (nid : Nat) (info : FundInfo) :
    Except (List Char) (Nat × List FundRow) :=
  match funds.find? (fun f =>
      match info.name, f.name with
      | some n, some fn => n == fn
      | _, _ => false) with
  | some f => .ok (f.id, funds)
  | none =>
    match info.name with
    | none => .error ("IntegrityError: funds.name may not be NULL").data
    | some n =>
      .ok (nid, funds ++ [⟨nid, some n, info.gp, info.vintage_year, info.fund_size⟩])

/-- `min(document.pages.keys())`. -/
def minPage : List Nat → Nat
  | [] => 0
  | x :: xs => xs.foldl Nat.min x

/-- The texts of `document.texts` whose provenance includes the given page,
joined with newlines. -/
def pageText (d : DoclingDoc) (page_no : Nat) : List Char :=
  List.intercalate [' ', '\n'].tail
    ((d.texts.filter (fun t => t.prov.any (fun p => p.page_no == page_no))).map
      (fun t => t.text))

/-- The `if any(fund_info.values()):` step of `process_document`: resolve the
fund id from the extracted attributes — the id of the looked-up or created
fund when any attribute is truthy, `None` otherwise. -/
def resolveFundInfo (funds : List FundRow) (nid : Nat) (info : FundInfo) :
    Except (List Char) (Option Nat × List FundRow) :=
  if fundInfoAny info then
    match get_or_create_fund funds nid info with
    | .error e => .error e
    | .ok (fid, funds') => .ok (some fid, funds')
  else .ok (none, funds)

/-- Lines 84-98 of `process_document`: extract fund info from the first page's
text (when there are pages and texts) and resolve `fund_id`. -/
def resolveFund (d : DoclingDoc) (funds : List FundRow) (nid : Nat) :
    Except (List Char) (Option Nat × List FundRow) :=
  match
    (if !d.pages.isEmpty && !d.texts.isEmpty then
      parse_fund_info_from_text (pageText d (minPage d.pages))
    else
      Except.ok (⟨none, none, none, none, none⟩ : FundInfo)) with
  | .error e => .error e
  | .ok info => resolveFundInfo funds nid info

/-- The `all_texts` loop of `process_document`: one `{page_number, text}` block
per page that has at least one text item. -/
def collectTexts (d : DoclingDoc) : List TextBlock :=
  d.pages.filterMap (fun page_no =>
    let pts := (d.texts.filter (fun t => t.prov.any (fun p => p.page_no == page_no))).map
      (fun t => t.text)
    if pts.isEmpty then none else some ⟨page_no, pageText d page_no⟩)

/-- The `if all_tables:` loop: feed every extracted table to
`TableParser.parse_table`, accumulating the inserted rows and the total count. -/
def parseAllTables (fund_id : Option Nat) (tables : List PTable) :
    List LedgerRow × Nat :=
  tables.foldl
    (fun acc t =>
      let p := parse_table fund_id t
      (acc.1 ++ p.1, acc.2 + p.2))
    ([], 0)

/-- An embedding row inserted by `VectorStore.add_document` during the
pipeline (the `fund_id` column and metadata value come from the merged chunk
metadata). -/
structure PipeEmb where
  content : List Char
  document_id : Nat
  fund_id : Option Nat
  page : Nat
deriving DecidableEq, Repr

/-- The chunk-indexing loop: `add_document` is called once per chunk in order;
the call whose 0-based index equals `failAt` raises (rolling back only its own
insert), which aborts the loop; earlier inserts are already committed. -/
def addChunksFrom (failAt : Option Nat) (document_id : Nat)
    (fund_id : Option Nat) : Nat → List Chunk → List PipeEmb × Option (List Char)
  | _, [] => ([], none)
  | i, c :: cs =>
    if failAt == some i then ([], some ("Error adding document").data)
    else
      let p := addChunksFrom failAt document_id fund_id (i + 1) cs
      (⟨c.text, document_id, fund_id, c.page⟩ :: p.1, p.2)

/-- A row of the `documents` table, as far as the pipeline touches it. -/
structure DocRow where
  id : Nat
  parsing_status : List Char
  error_message : Option (List Char)
deriving DecidableEq, Repr

/-- The database state threaded through one `process_document` call. -/
structure DBState where
  funds : List FundRow
  ledger : List LedgerRow
  embeddings : List PipeEmb
  documents : List DocRow
deriving DecidableEq, Repr

/-- The result dictionary returned by `process_document`. -/
structure ProcResult where
  document_id : Nat
  fund_id : Option Nat
  tables_parsed : Nat
  rows_parsed : Nat
  text_chunks : Nat
  status : List Char
  error : Option (List Char)
deriving DecidableEq, Repr

/-- The environment of one `process_document` call: the outcome of the PDF
conversion, the index of the `add_document` call that raises (if any), and
whether the final status-persistence commit fails. -/
structure DocEnv where
  conv : Except (List Char) DoclingDoc
  indexFailAt : Option Nat
  persistFail : Bool
deriving Repr

/-- The `try` block of `process_document` (lines 78-192): every failure is
caught at the top and turned into a `failed` result with the stringified
exception; fields are only populated for the phases that succeeded. -/
def processTry (conv : Except (List Char) DoclingDoc) (indexFailAt : Option Nat)
    (db : DBState) (document_id : Nat) (fund_id0 : Option Nat) (nid : Nat) :
    ProcResult × DBState :=
  let result : ProcResult :=
    ⟨document_id, fund_id0, 0, 0, 0, ("pending").data, none⟩
  match conv with
  | .error e => ({ result with status := ("failed").data, error := some e }, db)
  | .ok document =>
    match resolveFund document db.funds nid with
    | .error e => ({ result with status := ("failed").data, error := some e }, db)
    | .ok (fund_id, funds') =>
      let db := { db with funds := funds' }
      let all_tables := document.tables.map extractTable
      let all_texts := collectTexts document
      let (result, db) :=
        if !all_tables.isEmpty then
          let p := parseAllTables fund_id all_tables
          ({ result with tables_parsed := all_tables.length, rows_parsed := p.2 },
            { db with ledger := db.ledger ++ p.1 })
        else (result, db)
      if !all_texts.isEmpty then
        let chunks := chunk_text all_texts
        let a := addChunksFrom indexFailAt document_id fund_id 0 chunks
        let db := { db with embeddings := db.embeddings ++ a.1 }
        match a.2 with
        | some e => ({ result with status := ("failed").data, error := some e }, db)
        | none =>
          ({ result with
              text_chunks := chunks.length
              status := ("completed").data
              fund_id := fund_id }, db)
      else
        ({ result with status := ("completed").data, fund_id := fund_id }, db)

/-- The status-persistence update on the `documents` table. -/
def updateDocRow (docs : List DocRow) (document_id : Nat) (st : List Char)
    (err : Option (List Char)) : List DocRow :=
  docs.map (fun d =>
    if d.id == document_id then { d with parsing_status := st, error_message := err }
    else d)

/-- `DocumentProcessor.process_document`: run the guarded `try` block, then
persist the final status in an independent step whose failure is caught and
rolled back; the in-memory result is returned in every case. -/
def process_document (env : DocEnv) (db : DBState) (document_id : Nat)
    (fund_id : Option Nat) (nid : Nat) : ProcResult × DBState :=
  let p := processTry env.conv env.indexFailAt db document_id fund_id nid
  let db2 :=
    if env.persistFail then p.2
    else { p.2 with
      documents := updateDocRow p.2.documents document_id p.1.status p.1.error }
  (p.1, db2)

/-! ## Vector store (`app/services/vector_store.py`) -/

/-- A stored row of `document_embeddings` as seen by `similarity_search`. -/
structure EmbRecord where
  id : Nat
  document_id : Option Nat
  fund_id : Option Nat
  content : List Char
  embedding : List Rat
deriving DecidableEq, Repr

/-- One formatted result of `similarity_search`. -/
structure SearchHit where
  id : Nat
  document_id : Option Nat
  fund_id : Option Nat
  content : List Char
  score : Rat
deriving DecidableEq, Repr

/-- The vector distance used for ranking (`embedding <-> query`), modelled as
the squared Euclidean distance: an order-preserving stand-in for pgvector's
`<->` (the square root is monotone, and `Rat` has no exact square root). -/
def dist2 (a b : List Rat) : Rat :=
  ((a.zipWith (fun x y => (x - y) * (x - y)) b).foldl (· + ·) 0)

/-- The equality condition emitted for one retained filter key
(`f"{key} = {value}"`); SQL `NULL = value` is never true. -/
def condMatches (r : EmbRecord) (p : List Char × Nat) : Bool :=
  if p.1 == ("document_id").data then r.document_id == some p.2
  else r.fund_id == some p.2

/-- The conditions kept from `filter_metadata`: only the keys `document_id`
and `fund_id` are honored; an absent or empty dictionary yields no `WHERE`
clause. -/
def filterConds (filter_metadata : Option (List (List Char × Nat))) :
    List (List Char × Nat) :=
  match filter_metadata with
  | none => []
  | some fm =>
    fm.filter (fun p => p.1 == ("document_id").data || p.1 == ("fund_id").data)

/-- `VectorStore.similarity_search`: embed the query (a failure anywhere is
caught and yields `[]`), filter by the retained equality conditions, order by
ascending vector distance, keep at most `k`, and report
`score = 1 - distance`. -/
def similarity_search (store : List EmbRecord)
    (queryEmbedding : Except (List Char) (List Rat)) (k : Nat)
    (filter_metadata : Option (List (List Char × Nat))) : List SearchHit :=
  match queryEmbedding with
  | .error _ => []
  | .ok q =>
    let conds := filterConds filter_metadata
    let filtered := store.filter (fun r => conds.all (condMatches r))
    let sorted := filtered.insertionSort
      (fun a b => dist2 a.embedding q ≤ dist2 b.embedding q)
    (sorted.take k).map (fun r =>
      ⟨r.id, r.document_id, r.fund_id, r.content, 1 - dist2 r.embedding q⟩)

/-! ## Query engine (`app/services/query_engine.py`) -/

/-- The closed set of query intents. -/
inductive Intent where
  | calculation
  | definition
  | retrieval
  | general
deriving DecidableEq, Repr

/-- The external collaborators of one `process_query` call: the classified
intent, the retrieval results, the metrics-calculator output and the
language-generation output. -/
structure QueryEnv where
  intent : Intent
  retrieved : List SearchHit
  metricsResult : List (List Char × Rat)
  llmAnswer : List Char
deriving Repr

/-- The response dictionary of `process_query`; `metrics = none` means the
`metrics` key is absent. -/
structure QueryResponse where
  answer : List Char
  sources : List SearchHit
  metrics : Option (List (List Char × Rat))
deriving Repr

/-- Modelled from the spec: `QueryEngine.process_query`
(`app/services/query_engine.py` is not part of the provided sources; only its
tests are).  Spec 4.5: Classify, then Retrieve always, then ComputeMetrics
only if the intent is `calculation` and a `fund_id` was supplied (merging the
calculator result under `metrics`), then Compose.  The second component
counts the calls made to `MetricsCalculator.calculate_all_metrics`. -/
def process_query (env : QueryEnv) (query : List Char) (fund_id : Option Nat) :
    QueryResponse × Nat :=
  let sources := env.retrieved
  let mp : Option (List (List Char × Rat)) × Nat :=
    if env.intent = Intent.calculation ∧ fund_id.isSome then
      (some env.metricsResult, 1)
    else (none, 0)
  ({ answer := env.llmAnswer, sources := sources, metrics := mp.1 }, mp.2)

/-! ## Concrete example inputs used by counterexamples and witnesses -/

/-- A docling cell grid whose index-0 row contains three header-flagged cells
and one data-flagged cell (text `X`), plus one ordinary data row. -/
def exCells : List TableCell :=
  [⟨0, 0, ("Type A").data, true⟩, ⟨0, 1, ("Amount").data, true⟩,
   ⟨0, 2, ("Extra").data, true⟩, ⟨0, 3, ("X").data, false⟩,
   ⟨1, 0, ("2024-01-15").data, false⟩, ⟨1, 1, ("Fee").data, false⟩,
   ⟨1, 2, ("100").data, false⟩]

/-- A one-page document whose first page carries no fund header and one table. -/
def doc0 : DoclingDoc :=
  { pages := [1]
    texts := [⟨("hello").data, [⟨1⟩]⟩]
    tables := [⟨some exCells⟩] }

/-- A one-page document whose first page text carries a fund header. -/
def doc1 : DoclingDoc :=
  { pages := [1]
    texts := [⟨("Fund Name: Alpha Fund\nVintage Year: 2020").data, [⟨1⟩]⟩]
    tables := [⟨some exCells⟩] }

/-- An initial database state with one document row and nothing else. -/
def db0 : DBState := ⟨[], [], [], [⟨1, ("processing").data, none⟩]⟩

/-- Environment: conversion succeeds on `doc0`, indexing and persistence work. -/
def env0 : DocEnv := ⟨.ok doc0, none, false⟩

/-- Environment: conversion succeeds on `doc0` but the first `add_document`
call raises. -/
def env1 : DocEnv := ⟨.ok doc0, some 0, false⟩

/-- Environment: conversion succeeds on `doc1`, everything else works. -/
def env2 : DocEnv := ⟨.ok doc1, none, false⟩

/-- The fund table produced by resolving `doc1` against an empty fund table
with fresh id 5. -/
def fundsW : List FundRow :=
  [⟨5, some (("Alpha Fund").data), none, some 2020, none⟩]

/-- A table whose single row has an unparsable date cell. -/
def tableBadDate : PTable :=
  ⟨[("Date").data, ("Type A").data, ("Amount").data],
   [[("not-a-date").data, ("Fee").data, ("5").data]]⟩

/-- A five-cell adjustment row. -/
def rowAdj5 : List (List Char) :=
  [("2024-01-15").data, ("Rebate").data, ("100").data, ("Yes").data, ("note").data]

/-- A small embedding store for the retrieval witnesses. -/
def store0 : List EmbRecord :=
  [⟨1, some 1, some 2, ("a").data, [0, 0]⟩,
   ⟨2, some 1, some 3, ("b").data, [1, 0]⟩,
   ⟨3, some 2, some 2, ("c").data, [3, 0]⟩]

/-- A query-engine environment classifying the query as `calculation`. -/
def qenv0 : QueryEnv :=
  ⟨Intent.calculation, [], [(("DPI").data, 5/4)], ("ans").data⟩

/-- The case-insensitive keyword test used by `_classify_table`:
`kw in header.lower()`. -/
def hasKw (h kw : List Char) : Prop := containsSeq kw (lowerStr h) = true

instance (h kw : List Char) : Decidable (hasKw h kw) :=
  inferInstanceAs (Decidable (containsSeq kw (lowerStr h) = true))

/-! ## Claim theorems -/

/-- C7: amount parsing strips every character that is not a digit, `.` or
`-`, parses the remainder as a float, and returns `0.0` instead of failing
when the remainder is unparsable; `parse_amount "1234.50" = 1234.50`,
`parse_amount "$1,234.50" = 1234.50`, `parse_amount "garbage" = 0.0`. -/
theorem claim_c7 :
    (∀ value : List Char,
      parse_amount value =
        (pyFloatOfString (value.filter
          (fun c => c.isDigit || c == '.' || c == '-'))).getD 0) ∧
    parse_amount ("1234.50").data = (1234.50 : Rat) ∧
    parse_amount ("$1,234.50").data = (1234.50 : Rat) ∧
    parse_amount ("garbage").data = 0 := by
  refine ⟨fun value => ?_, ?_, ?_, by decide⟩
  · have hk : value.filter (fun c => c.isDigit || c == '.' || c == '-') =
        stripAmount value := rfl
    rw [hk]
    cases h : pyFloatOfString (stripAmount value) with
    | none => simp [parse_amount, h]
    | some r => simp [parse_amount, h]
  · rw [show parse_amount (("1234.50").data) = mkRat 123450 100 from rfl,
      Rat.mkRat_eq_div]
    norm_num
  · rw [show parse_amount (("$1,234.50").data) = mkRat 123450 100 from rfl,
      Rat.mkRat_eq_div]
    norm_num

/-- C8: date parsing tries `YYYY-MM-DD`, `DD-MM-YYYY`, `MM/DD/YYYY` in that
order and returns the first success; empty input or exhausting all formats
yields `none` without raising, and a row whose date cell is unparsable is
still inserted with a null date rather than rejected. -/
theorem claim_c8 :
    (∀ date_str : List Char,
      parse_date date_str =
        if date_str.isEmpty then none
        else
          match strptimeYMD (pyStrip date_str) with
          | some d => some d
          | none =>
            match strptimeDMY (pyStrip date_str) with
            | some d => some d
            | none => strptimeMDY (pyStrip date_str)) ∧
    parse_date ("2024-01-15").data = some ⟨2024, 1, 15⟩ ∧
    parse_date ("15-01-2024").data = some ⟨2024, 1, 15⟩ ∧
    parse_date ("01/15/2024").data = some ⟨2024, 1, 15⟩ ∧
    parse_date ("not-a-date").data = none ∧
    parse_table (some 1) tableBadDate =
      ([LedgerRow.adjustmentRow (some 1) none (("Fee").data) (mkRat 5 1)
        false []], 1) :=
  ⟨fun _ => rfl, by decide, by decide, by decide, by decide, by decide⟩

/-- C2 counterexample: in `exCells` the cell `X` sits in the index-0 row and
is not header-flagged, yet it appears neither among the extracted headers nor
in any extracted row — refuting the claim that such cells are still treated
as data. -/
theorem claim_c2_counterexample :
    (∃ c ∈ exCells, c.start_row_offset_idx = 0 ∧ c.column_header = false ∧
      c.text = ("X").data) ∧
    ("X").data ∉ (extractCells exCells).headers ∧
    ∀ r ∈ (extractCells exCells).rows, ("X").data ∉ r := by
  decide

/-- C1 counterexample: processing `doc0` (whose first page has no fund
header) with a caller-supplied `fund_id = 7` completes and inserts a ledger
row whose `fund_id` is null — refuting the claim that a ledger row's fund id
is never null. -/
theorem claim_c1_counterexample :
    (process_document env0 db0 1 (some 7) 1).2.ledger =
      [LedgerRow.adjustmentRow none (some ⟨2024, 1, 15⟩) (("Fee").data)
        (mkRat 100 1) false []] ∧
    (process_document env0 db0 1 (some 7) 1).1.status = ("completed").data := by
  constructor
  · decide
  · decide

/-- C10 counterexample: processing `doc0` (no fund attribute extracted, so
the internal fund id becomes null) with caller-supplied `fund_id = 7` and a
failing first `add_document` call returns a result whose `fund_id` is still
`7` — refuting the claim that the returned result's fund id is null whenever
no fund attribute is extracted. -/
theorem claim_c10_counterexample :
    resolveFund doc0 db0.funds 1 = Except.ok (none, []) ∧
    (process_document env1 db0 1 (some 7) 1).1.fund_id = some 7 ∧
    (process_document env1 db0 1 (some 7) 1).1.status = ("failed").data := by
  refine ⟨rfl, by decide, by decide⟩

/-- C5: the metrics calculator is called exactly once iff the classified
intent is `calculation` and a `fund_id` was supplied (the result then merged
under `metrics`); with no `fund_id` the metrics step is skipped and the
calculator is never called, even for a calculation-intent query. -/
theorem claim_c5 (env : QueryEnv) (query : List Char) (fund_id : Option Nat) :
    ((process_query env query fund_id).2 = 1 ↔
      env.intent = Intent.calculation ∧ fund_id.isSome) ∧
    ((process_query env query fund_id).2 = 0 ↔
      ¬(env.intent = Intent.calculation ∧ fund_id.isSome)) ∧
    (fund_id = none → (process_query env query fund_id).2 = 0 ∧
      (process_query env query fund_id).1.metrics = none) ∧
    ((process_query env query fund_id).1.metrics =
      if env.intent = Intent.calculation ∧ fund_id.isSome then
        some env.metricsResult
      else none) := by
  by_cases h : env.intent = Intent.calculation ∧ fund_id.isSome
  · refine ⟨?_, ?_, ?_, ?_⟩ <;>
      simp [process_query, h]
    rintro rfl
    simp at h
  · refine ⟨?_, ?_, ?_, ?_⟩ <;>
      simp [process_query, h]

/-- Witness for C5: the documented edge case — a calculation-intent query
with no fund id never calls the calculator and carries no `metrics` key. -/
theorem claim_c5_witness :
    (process_query qenv0 (("q").data) none).2 = 0 ∧
    (process_query qenv0 (("q").data) none).1.metrics = none :=
  (claim_c5 qenv0 (("q").data) none).2.2.1 rfl

/-- C3: a row of an adjustment-classified table that passes the column-count
check maps to an Adjustment taking date, type label and amount from cells 0,
1, 2; the contribution-adjustment flag is parsed from cell 3 only when the
row has at least 5 cells (otherwise `false`), and the description comes from
cell 4 only when the row has at least 6 cells (otherwise the empty string). -/
theorem claim_c3 (fund_id : Option Nat) (row : List (List Char))
    (h : 3 ≤ row.length) :
    mapRow TableType.adjustment fund_id row =
      some (LedgerRow.adjustmentRow fund_id
        (parse_date (row.getD 0 []))
        (row.getD 1 [])
        (parse_amount (row.getD 2 []))
        (if row.length > 4 then parse_bool (row.getD 3 []) else false)
        (if row.length > 5 then row.getD 4 [] else [])) := by
  rcases row with _ | ⟨a, _ | ⟨b, _ | ⟨c, rest⟩⟩⟩
  · simp at h
  · simp at h
  · simp at h
  · cases b with
    | nil => simp [mapRow, List.getD]
    | cons x xs => simp [mapRow, List.getD]

/-- Witness for C3 at a concrete five-cell row. -/
theorem claim_c3_witness :
    3 ≤ rowAdj5.length ∧
    mapRow TableType.adjustment (some 2) rowAdj5 =
      some (LedgerRow.adjustmentRow (some 2)
        (parse_date (rowAdj5.getD 0 []))
        (rowAdj5.getD 1 [])
        (parse_amount (rowAdj5.getD 2 []))
        (if rowAdj5.length > 4 then parse_bool (rowAdj5.getD 3 []) else false)
        (if rowAdj5.length > 5 then rowAdj5.getD 4 [] else [])) :=
  ⟨by decide, claim_c3 (some 2) rowAdj5 (by decide)⟩

/-- C6: table classification — any header containing the case-insensitive
substring `call number` forces `capital_call`; otherwise headers containing
both a `type` and an `amount` token give `distribution` when a `recallable`
token is present and `adjustment` when not; otherwise `adjustment`. -/
theorem claim_c6 (headers : List (List Char)) :
    classify_table headers =
      if ∃ h ∈ headers, hasKw h (("call number").data) then
        TableType.capital_call
      else if (∃ h ∈ headers, hasKw h (("type").data)) ∧
          (∃ h ∈ headers, hasKw h (("amount").data)) then
        if ∃ h ∈ headers, hasKw h (("recallable").data) then
          TableType.distribution
        else TableType.adjustment
      else TableType.adjustment := by
  have key : ∀ kw : List Char,
      (((headers.map lowerStr).any (fun h => containsSeq kw h)) = true) ↔
        ∃ h ∈ headers, hasKw h kw := by
    intro kw
    constructor
    · intro hx
      rcases List.any_eq_true.mp hx with ⟨h, hmem, hp⟩
      rcases List.mem_map.mp hmem with ⟨h0, hh0, rfl⟩
      exact ⟨h0, hh0, hp⟩
    · rintro ⟨h0, hh0, hp⟩
      exact List.any_eq_true.mpr ⟨lowerStr h0, List.mem_map_of_mem _ hh0, hp⟩
  simp only [classify_table]
  refine if_congr (key _) rfl (if_congr ?_ (if_congr (key _) rfl rfl) rfl)
  rw [Bool.and_eq_true]
  exact and_congr (key _) (key _)

set_option maxHeartbeats 1000000 in
/-- C9: `similarity_search` returns at most `k` results, each coming from a
stored record matching every retained equality filter, ordered best-first by
non-increasing similarity score (`1 - distance`, so smaller distance means
more similar); any internal failure yields the empty list instead of
raising. -/
theorem claim_c9 (store : List EmbRecord) (q : List Rat) (k : Nat)
    (fm : Option (List (List Char × Nat))) (e : List Char) :
    (similarity_search store (.ok q) k fm).length ≤ k ∧
    (∀ hit ∈ similarity_search store (.ok q) k fm, ∃ r ∈ store,
      (filterConds fm).all (condMatches r) = true ∧
      hit = ⟨r.id, r.document_id, r.fund_id, r.content,
        1 - dist2 r.embedding q⟩) ∧
    List.Pairwise (fun a b => b.score ≤ a.score)
      (similarity_search store (.ok q) k fm) ∧
    similarity_search store (.error e) k fm = [] := by
  have heq : similarity_search store (.ok q) k fm =
      (((store.filter (fun r => (filterConds fm).all (condMatches r))).insertionSort
          (fun a b => dist2 a.embedding q ≤ dist2 b.embedding q)).take k).map
        (fun r => ⟨r.id, r.document_id, r.fund_id, r.content,
          1 - dist2 r.embedding q⟩) := rfl
  refine ⟨?_, ?_, ?_, rfl⟩
  · rw [heq, List.length_map, List.length_take]
    exact min_le_left _ _
  · rw [heq]
    intro hit hmem
    rcases List.mem_map.mp hmem with ⟨r, hr, rfl⟩
    have hr2 : r ∈ (store.filter
        (fun r => (filterConds fm).all (condMatches r))).insertionSort
          (fun a b => dist2 a.embedding q ≤ dist2 b.embedding q) :=
      List.mem_of_mem_take hr
    have hr3 := (List.perm_insertionSort
      (fun a b => dist2 a.embedding q ≤ dist2 b.embedding q)
      (store.filter (fun r => (filterConds fm).all (condMatches r)))).mem_iff.mp hr2
    rcases List.mem_filter.mp hr3 with ⟨hstore, hcond⟩
    exact ⟨r, hstore, hcond, rfl⟩
  · rw [heq]
    haveI : IsTotal EmbRecord
        (fun a b => dist2 a.embedding q ≤ dist2 b.embedding q) :=
      ⟨fun a b => le_total _ _⟩
    haveI : IsTrans EmbRecord
        (fun a b => dist2 a.embedding q ≤ dist2 b.embedding q) :=
      ⟨fun a b c hab hbc => le_trans hab hbc⟩
    have hs := List.sorted_insertionSort
      (fun a b => dist2 a.embedding q ≤ dist2 b.embedding q)
      (store.filter (fun r => (filterConds fm).all (condMatches r)))
    have ht := hs.sublist (List.take_sublist k _)
    rw [List.pairwise_map]
    exact ht.imp (fun hab => sub_le_sub_left hab 1)

/-- Unrolling the header/row accumulation loop of `extractCells`: the fold
appends, per row key, the index-0 header cells and (for positive keys) one
data row. -/
lemma extract_foldl (cells : List TableCell) (keys : List Nat)
    (h0 : List (List Char)) (r0 : List (List (List Char))) :
    keys.foldl (extractStep cells) (h0, r0) =
      (h0 ++ keys.flatMap (fun k =>
        ((cells.filter (fun c => c.start_row_offset_idx == k)).filter
          (fun c => c.column_header && k == 0)).map (fun c => c.text)),
       r0 ++ keys.flatMap (fun k =>
        if k > 0 then
          [((cells.filter (fun c => c.start_row_offset_idx == k)).filter
            (fun c => !c.column_header)).map (fun c => c.text)]
        else [])) := by
  induction keys generalizing h0 r0 with
  | nil => simp
  | cons k ks ih =>
    rw [List.foldl_cons, ih]
    by_cases hk : k > 0 <;>
      simp [extractStep, hk, List.append_assoc]

/-- A key list avoiding 0 contributes no header cells. -/
lemma flatMap_hs_nil (cells : List TableCell) (keys : List Nat)
    (h : 0 ∉ keys) :
    keys.flatMap (fun k =>
      ((cells.filter (fun c => c.start_row_offset_idx == k)).filter
        (fun c => c.column_header && k == 0)).map (fun c => c.text)) = [] := by
  induction keys with
  | nil => simp
  | cons k ks ih =>
    have hk : k ≠ 0 := fun e => h (e ▸ List.mem_cons_self k ks)
    rw [List.flatMap_cons, ih (fun hm => h (List.mem_cons_of_mem _ hm))]
    have hf : (k == 0) = false := by simp [hk]
    simp [hf]

/-- With distinct keys, the accumulated headers are exactly the index-0
header-flagged cells (in cell order) when 0 is a key, and empty otherwise. -/
lemma flatMap_hs_eq (cells : List TableCell) (keys : List Nat)
    (hnd : keys.Nodup) :
    keys.flatMap (fun k =>
      ((cells.filter (fun c => c.start_row_offset_idx == k)).filter
        (fun c => c.column_header && k == 0)).map (fun c => c.text)) =
      if 0 ∈ keys then
        (cells.filter (fun c => c.start_row_offset_idx == 0 && c.column_header)).map
          (fun c => c.text)
      else [] := by
  induction keys with
  | nil => simp
  | cons k ks ih =>
    rcases List.nodup_cons.mp hnd with ⟨hknotin, hnd'⟩
    rw [List.flatMap_cons]
    by_cases hk : k = 0
    · subst hk
      rw [flatMap_hs_nil cells ks hknotin]
      simp [List.filter_filter, Bool.and_comm]
    · have hf : (k == 0) = false := by simp [hk]
      rw [ih hnd']
      by_cases h0 : 0 ∈ ks
      · rw [if_pos h0, if_pos (List.mem_cons_of_mem _ h0)]
        simp [hf]
      · rw [if_neg h0, if_neg ?_]
        · simp [hf]
        · intro hin
          rcases List.mem_cons.mp hin with he | hmm
          · exact hk he.symm
          · exact h0 hmm

/-- Membership in the sorted key list is membership among the cells' row
indices. -/
lemma mem_sortedRowKeys (cells : List TableCell) (x : Nat) :
    x ∈ sortedRowKeys cells ↔ ∃ c ∈ cells, c.start_row_offset_idx = x := by
  unfold sortedRowKeys
  rw [(List.perm_insertionSort _ _).mem_iff, List.mem_dedup, List.mem_map]

/-- The sorted key list has no duplicates. -/
lemma nodup_sortedRowKeys (cells : List TableCell) :
    (sortedRowKeys cells).Nodup := by
  unfold sortedRowKeys
  exact (List.perm_insertionSort _ _).nodup_iff.mpr (List.nodup_dedup _)

/-- C2 amended: only header-flagged cells of the index-0 row become headers,
and the non-header cells of the index-0 row are collected into a row buffer
that is then discarded (only rows with index greater than 0 are kept), so
every extracted data cell originates from a positive-index, non-header cell;
index-0 non-header cells appear neither in the headers nor in any extracted
row. -/
theorem claim_c2_amended (cells : List TableCell) :
    (extractCells cells).headers =
      (cells.filter (fun c => c.start_row_offset_idx == 0 && c.column_header)).map
        (fun c => c.text) ∧
    ∀ r ∈ (extractCells cells).rows, ∀ x ∈ r, ∃ c ∈ cells,
      0 < c.start_row_offset_idx ∧ c.column_header = false ∧ c.text = x := by
  have hfold := extract_foldl cells (sortedRowKeys cells) [] []
  constructor
  · show ((sortedRowKeys cells).foldl (extractStep cells) ([], [])).1 = _
    rw [hfold]
    simp only [List.nil_append]
    rw [flatMap_hs_eq cells _ (nodup_sortedRowKeys cells)]
    by_cases h0 : 0 ∈ sortedRowKeys cells
    · simp [h0]
    · rw [if_neg h0]
      have hnone : cells.filter
          (fun c => c.start_row_offset_idx == 0 && c.column_header) = [] := by
        rw [List.filter_eq_nil_iff]
        intro c hc
        have : c.start_row_offset_idx ≠ 0 := by
          intro he
          exact h0 ((mem_sortedRowKeys cells 0).mpr ⟨c, hc, he⟩)
        simp [this]
      rw [hnone]
      simp
  · intro r hr x hx
    have hrows : (extractCells cells).rows =
        (sortedRowKeys cells).flatMap (fun k =>
          if k > 0 then
            [((cells.filter (fun c => c.start_row_offset_idx == k)).filter
              (fun c => !c.column_header)).map (fun c => c.text)]
          else []) := by
      show ((sortedRowKeys cells).foldl (extractStep cells) ([], [])).2 = _
      rw [hfold]
      simp
    rw [hrows] at hr
    rcases List.mem_flatMap.mp hr with ⟨k, hkmem, hrk⟩
    by_cases hk : k > 0
    · rw [if_pos hk] at hrk
      rcases List.mem_singleton.mp hrk with rfl
      rcases List.mem_map.mp hx with ⟨c, hcmem, rfl⟩
      rcases List.mem_filter.mp hcmem with ⟨hcmem2, hnothdr⟩
      rcases List.mem_filter.mp hcmem2 with ⟨hcells, hidx⟩
      refine ⟨c, hcells, ?_, ?_, rfl⟩
      · have : c.start_row_offset_idx = k := by simpa using hidx
        omega
      · simpa using hnothdr
    · rw [if_neg hk] at hrk
      simp at hrk

/-- Witness for C2 amended at the concrete cell grid `exCells`. -/
theorem claim_c2_amended_witness :
    (extractCells exCells).headers =
      (exCells.filter (fun c => c.start_row_offset_idx == 0 && c.column_header)).map
        (fun c => c.text) :=
  (claim_c2_amended exCells).1

/-- Every ledger row built by `mapRow` carries the `fund_id` it was given. -/
lemma mapRow_fundId (tt : TableType) (fid : Option Nat)
    (row : List (List Char)) (r : LedgerRow) (h : mapRow tt fid row = some r) :
    r.fundId = fid := by
  cases tt with
  | capital_call =>
    rcases row with _ | ⟨a, _ | ⟨b, _ | ⟨c, rest⟩⟩⟩
    · simp [mapRow] at h
    · simp [mapRow] at h
    · simp [mapRow] at h
    · simp only [mapRow, List.get?] at h
      cases h
      rfl
  | distribution =>
    rcases row with _ | ⟨a, _ | ⟨b, _ | ⟨c, _ | ⟨dd, rest⟩⟩⟩⟩
    · simp [mapRow] at h
    · simp [mapRow] at h
    · simp [mapRow] at h
    · simp [mapRow] at h
    · simp only [mapRow, List.get?] at h
      cases h
      rfl
  | adjustment =>
    rcases row with _ | ⟨a, _ | ⟨b, _ | ⟨c, rest⟩⟩⟩
    · simp [mapRow] at h
    · simp [mapRow] at h
    · simp [mapRow] at h
    · simp only [mapRow, List.get?] at h
      cases h
      rfl

/-- One `parse_table` loop step preserves "all accumulated rows carry the
given fund id". -/
lemma parse_table_step_fundId (tt : TableType) (fid : Option Nat)
    (headers : List (List Char)) (acc : List LedgerRow × Nat)
    (row : List (List Char)) (hacc : ∀ r ∈ acc.1, r.fundId = fid) :
    ∀ r ∈ (parse_table_step tt fid headers acc row).1, r.fundId = fid := by
  intro r hr
  unfold parse_table_step at hr
  split at hr
  · exact hacc r hr
  · split at hr
    case _ lr hm =>
      rcases List.mem_append.mp hr with hin | hin
      · exact hacc r hin
      · rw [List.mem_singleton.mp hin]
        exact mapRow_fundId _ _ _ _ hm
    case _ => exact hacc r hr

/-- Every row inserted by `parse_table` carries the `fund_id` it was given. -/
lemma parse_table_fundId (fid : Option Nat) (t : PTable) :
    ∀ r ∈ (parse_table fid t).1, r.fundId = fid := by
  have main : ∀ (rows : List (List (List Char))) (tt : TableType)
      (headers : List (List Char)) (acc : List LedgerRow × Nat),
      (∀ r ∈ acc.1, r.fundId = fid) →
      ∀ r ∈ (rows.foldl (parse_table_step tt fid headers) acc).1,
        r.fundId = fid := by
    intro rows
    induction rows with
    | nil => intro tt headers acc hacc; simpa using hacc
    | cons row rest ih =>
      intro tt headers acc hacc
      rw [List.foldl_cons]
      exact ih tt headers _ (parse_table_step_fundId tt fid headers acc row hacc)
  intro r hr
  exact main t.rows _ _ ([], 0) (by simp) r hr

/-- Every row inserted across all tables carries the `fund_id` it was given. -/
lemma parseAllTables_fundId (fid : Option Nat) (ts : List PTable) :
    ∀ r ∈ (parseAllTables fid ts).1, r.fundId = fid := by
  have main : ∀ (ts : List PTable) (acc : List LedgerRow × Nat),
      (∀ r ∈ acc.1, r.fundId = fid) →
      ∀ r ∈ (ts.foldl (fun acc t =>
        let p := parse_table fid t
        (acc.1 ++ p.1, acc.2 + p.2)) acc).1, r.fundId = fid := by
    intro ts
    induction ts with
    | nil => intro acc hacc; simpa using hacc
    | cons t rest ih =>
      intro acc hacc
      rw [List.foldl_cons]
      apply ih
      intro r hr
      rcases List.mem_append.mp hr with hin | hin
      · exact hacc r hin
      · exact parse_table_fundId fid t r hin
  exact main ts ([], 0) (by simp)

/-- Every embedding row inserted by the chunk-indexing loop carries the
`fund_id` it was given. -/
lemma addChunksFrom_fundId (failAt : Option Nat) (i : Nat) (fid : Option Nat) :
    ∀ (j : Nat) (cs : List Chunk), ∀ e ∈ (addChunksFrom failAt i fid j cs).1,
      e.fund_id = fid := by
  intro j cs
  induction cs generalizing j with
  | nil => intro e he; simp [addChunksFrom] at he
  | cons c rest ih =>
    intro e he
    simp only [addChunksFrom] at he
    split at he
    · simp at he
    · rcases List.mem_cons.mp he with rfl | hin
      · rfl
      · exact ih (j + 1) e hin

/-- When `_get_or_create_fund` succeeds, the returned id belongs to a fund row
present in the resulting fund table. -/
lemma get_or_create_fund_mem (funds : List FundRow) (nid : Nat)
    (info : FundInfo) (j : Nat) (funds' : List FundRow)
    (h : get_or_create_fund funds nid info = Except.ok (j, funds')) :
    ∃ f ∈ funds', f.id = j := by
  unfold get_or_create_fund at h
  split at h
  case _ f hf =>
    simp only [Except.ok.injEq, Prod.mk.injEq] at h
    rcases h with ⟨rfl, rfl⟩
    exact ⟨f, List.mem_of_find?_eq_some hf, rfl⟩
  case _ =>
    split at h
    · simp at h
    · simp only [Except.ok.injEq, Prod.mk.injEq] at h
      rcases h with ⟨rfl, rfl⟩
      exact ⟨_, List.mem_append_right _ (List.mem_singleton_self _), rfl⟩

/-- When the fund-resolution step yields a fund id, a fund row with that id
exists in the resulting fund table. -/
lemma resolveFundInfo_fund_exists (funds : List FundRow) (nid : Nat)
    (info : FundInfo) (j : Nat) (funds' : List FundRow)
    (h : resolveFundInfo funds nid info = Except.ok (some j, funds')) :
    ∃ f ∈ funds', f.id = j := by
  unfold resolveFundInfo at h
  by_cases ha : fundInfoAny info = true
  · rw [if_pos ha] at h
    cases hg : get_or_create_fund funds nid info with
    | error e => rw [hg] at h; simp at h
    | ok p =>
      rcases p with ⟨fid2, funds2⟩
      rw [hg] at h
      simp only [Except.ok.injEq, Prod.mk.injEq, Option.some.injEq] at h
      rcases h with ⟨rfl, rfl⟩
      exact get_or_create_fund_mem funds nid info _ _ hg
  · rw [if_neg ha] at h
    simp at h

/-- When `resolveFund` yields a fund id, a fund row with that id exists in the
resulting fund table. -/
lemma resolveFund_fund_exists (d : DoclingDoc) (funds : List FundRow)
    (nid : Nat) (j : Nat) (funds' : List FundRow)
    (h : resolveFund d funds nid = Except.ok (some j, funds')) :
    ∃ f ∈ funds', f.id = j := by
  unfold resolveFund at h
  split at h
  · simp at h
  · exact resolveFundInfo_fund_exists _ _ _ _ _ h

/-- The result of the `try` block always ends `completed` with no error or
`failed` with the stringified exception. -/
lemma processTry_status (conv : Except (List Char) DoclingDoc)
    (failAt : Option Nat) (db : DBState) (i : Nat) (f0 : Option Nat) (nid : Nat) :
    ((processTry conv failAt db i f0 nid).1.status = ("completed").data ∧
      (processTry conv failAt db i f0 nid).1.error = none) ∨
    ((processTry conv failAt db i f0 nid).1.status = ("failed").data ∧
      ∃ e, (processTry conv failAt db i f0 nid).1.error = some e) := by
  cases conv with
  | error e => right; exact ⟨rfl, e, rfl⟩
  | ok d =>
    simp only [processTry]
    cases hres : resolveFund d db.funds nid with
    | error e => right; exact ⟨rfl, e, rfl⟩
    | ok p =>
      rcases p with ⟨fid, funds'⟩
      cases hT : (d.tables.map extractTable).isEmpty <;>
        cases hX : (collectTexts d).isEmpty <;>
          simp only [hT, hX, Bool.not_true, Bool.not_false, if_true, if_false] <;>
            first
            | (left; exact ⟨rfl, rfl⟩)
            | (cases hA : (addChunksFrom failAt i fid 0
                  (chunk_text (collectTexts d))).2 with
               | none => left; exact ⟨rfl, rfl⟩
               | some e => right; exact ⟨rfl, e, rfl⟩)

/-- With a successful conversion and fund resolution, the `try` block's final
database state appends exactly the parsed ledger rows and the indexed chunk
embeddings and installs the resolved fund table. -/
lemma processTry_ok_state (d : DoclingDoc) (failAt : Option Nat) (db : DBState)
    (i : Nat) (f0 : Option Nat) (nid : Nat) (fid : Option Nat)
    (funds' : List FundRow)
    (hres : resolveFund d db.funds nid = Except.ok (fid, funds')) :
    (processTry (Except.ok d) failAt db i f0 nid).2 =
      { funds := funds'
        ledger := db.ledger ++ (parseAllTables fid (d.tables.map extractTable)).1
        embeddings := db.embeddings ++
          (addChunksFrom failAt i fid 0 (chunk_text (collectTexts d))).1
        documents := db.documents } := by
  simp only [processTry]
  rw [hres]
  cases hT : (d.tables.map extractTable).isEmpty <;>
    cases hX : (collectTexts d).isEmpty <;>
      simp only [hT, hX, Bool.not_true, Bool.not_false, if_true, if_false]
  · cases hA : (addChunksFrom failAt i fid 0 (chunk_text (collectTexts d))).2 <;>
      simp [hA]
  · simp [List.isEmpty_iff.mp hX, parseAllTables, addChunksFrom, chunk_text]
  · have hTe : d.tables.map extractTable = [] := List.isEmpty_iff.mp hT
    cases hA : (addChunksFrom failAt i fid 0 (chunk_text (collectTexts d))).2 <;>
      simp [hA, hTe, parseAllTables]
  · have hTe : d.tables.map extractTable = [] := List.isEmpty_iff.mp hT
    have hXe : collectTexts d = [] := List.isEmpty_iff.mp hX
    simp [hTe, hXe, parseAllTables, addChunksFrom, chunk_text]

/-- With a successful conversion and fund resolution, a `completed` result
reports the resolved fund id (the caller-supplied value is overwritten). -/
lemma processTry_ok_completed (d : DoclingDoc) (failAt : Option Nat)
    (db : DBState) (i : Nat) (f0 : Option Nat) (nid : Nat) (fid : Option Nat)
    (funds' : List FundRow)
    (hres : resolveFund d db.funds nid = Except.ok (fid, funds')) :
    (processTry (Except.ok d) failAt db i f0 nid).1.status = ("completed").data →
    (processTry (Except.ok d) failAt db i f0 nid).1.fund_id = fid := by
  simp only [processTry]
  rw [hres]
  cases hT : (d.tables.map extractTable).isEmpty <;>
    cases hX : (collectTexts d).isEmpty <;>
      simp only [hT, hX, Bool.not_true, Bool.not_false, if_true, if_false] <;>
        first
        | (intro _; rfl)
        | (cases hA : (addChunksFrom failAt i fid 0
              (chunk_text (collectTexts d))).2 with
           | none => intro _; rfl
           | some e => simp)

/-- C4: `process_document` never raises — it always returns a result whose
status is `completed` with no error, or `failed` with the stringified
exception; and a failure of the status-persistence step is swallowed, leaving
the returned in-memory result unchanged. -/
theorem claim_c4 (env : DocEnv) (db : DBState) (document_id : Nat)
    (fund_id : Option Nat) (nid : Nat) (b : Bool) :
    (((process_document env db document_id fund_id nid).1.status =
        ("completed").data ∧
      (process_document env db document_id fund_id nid).1.error = none) ∨
     ((process_document env db document_id fund_id nid).1.status =
        ("failed").data ∧
      ∃ e, (process_document env db document_id fund_id nid).1.error = some e)) ∧
    (process_document { env with persistFail := b } db document_id fund_id
        nid).1 =
      (process_document env db document_id fund_id nid).1 := by
  exact ⟨processTry_status env.conv env.indexFailAt db document_id fund_id nid,
    rfl⟩

/-- C1 amended: every ledger row inserted by a `process_document` call whose
conversion and fund resolution succeed carries exactly the resolved fund id —
the id of a fund present in the fund table when one was resolved, and null
when no fund attribute was extracted. -/
theorem claim_c1_amended (env : DocEnv) (db : DBState) (document_id : Nat)
    (fund_id0 : Option Nat) (nid : Nat) (d : DoclingDoc) (fid : Option Nat)
    (funds' : List FundRow)
    (hconv : env.conv = Except.ok d)
    (hres : resolveFund d db.funds nid = Except.ok (fid, funds')) :
    (∀ r ∈ (process_document env db document_id fund_id0 nid).2.ledger.drop
        db.ledger.length, r.fundId = fid) ∧
    (∀ j, fid = some j → ∃ f ∈ funds', f.id = j) := by
  constructor
  · intro r hr
    have hdb : (process_document env db document_id fund_id0 nid).2.ledger =
        (processTry env.conv env.indexFailAt db document_id fund_id0 nid).2.ledger := by
      unfold process_document
      by_cases hp : env.persistFail = true <;> simp [hp]
    rw [hdb, hconv,
      processTry_ok_state d env.indexFailAt db document_id fund_id0 nid fid
        funds' hres, List.drop_left] at hr
    exact parseAllTables_fundId fid (d.tables.map extractTable) r hr
  · intro j hj
    subst hj
    exact resolveFund_fund_exists d db.funds nid j funds' hres

/-- Witness for C1 amended: processing `doc1` (fund header `Alpha Fund`)
creates fund 5 and every inserted ledger row carries fund id 5. -/
theorem claim_c1_witness :
    (∀ r ∈ (process_document env2 db0 3 none 5).2.ledger.drop
        db0.ledger.length, r.fundId = some 5) ∧
    (∀ j, (some 5 : Option Nat) = some j → ∃ f ∈ fundsW, f.id = j) :=
  claim_c1_amended env2 db0 3 none 5 doc1 (some 5) fundsW rfl (by rfl)

/-- C10 amended: inside `process_document` the caller-supplied fund id is
overwritten by the resolved one before any insertion — every inserted ledger
row and every indexed chunk's metadata carry the resolved fund id (null when
no fund attribute was extracted) — and the returned result reports the
resolved fund id whenever processing completes; on a failure after the
overwrite the returned result's `fund_id` reverts to the caller-supplied
value (see the counterexample). -/
theorem claim_c10_amended (env : DocEnv) (db : DBState) (document_id : Nat)
    (fund_id0 : Option Nat) (nid : Nat) (d : DoclingDoc) (fid : Option Nat)
    (funds' : List FundRow)
    (hconv : env.conv = Except.ok d)
    (hres : resolveFund d db.funds nid = Except.ok (fid, funds')) :
    (∀ e ∈ (process_document env db document_id fund_id0 nid).2.embeddings.drop
        db.embeddings.length, e.fund_id = fid) ∧
    (∀ r ∈ (process_document env db document_id fund_id0 nid).2.ledger.drop
        db.ledger.length, r.fundId = fid) ∧
    ((process_document env db document_id fund_id0 nid).1.status =
        ("completed").data →
      (process_document env db document_id fund_id0 nid).1.fund_id = fid) := by
  have hdb : (process_document env db document_id fund_id0 nid).2.embeddings =
      (processTry env.conv env.indexFailAt db document_id fund_id0 nid).2.embeddings := by
    unfold process_document
    by_cases hp : env.persistFail = true <;> simp [hp]
  refine ⟨?_, (claim_c1_amended env db document_id fund_id0 nid d fid funds'
    hconv hres).1, ?_⟩
  · intro e he
    rw [hdb, hconv,
      processTry_ok_state d env.indexFailAt db document_id fund_id0 nid fid
        funds' hres, List.drop_left] at he
    exact addChunksFrom_fundId env.indexFailAt document_id fid 0
      (chunk_text (collectTexts d)) e he
  · have h1 : (process_document env db document_id fund_id0 nid).1 =
        (processTry env.conv env.indexFailAt db document_id fund_id0 nid).1 := rfl
    rw [h1, hconv]
    exact processTry_ok_completed d env.indexFailAt db document_id fund_id0 nid
      fid funds' hres

/-- Witness for C10 amended: processing `doc1` with caller-supplied fund id 9
completes and the returned result reports the resolved fund id 5. -/
theorem claim_c10_witness :
    (process_document env2 db0 3 (some 9) 5).1.fund_id = some 5 :=
  (claim_c10_amended env2 db0 3 (some 9) 5 doc1 (some 5) fundsW rfl
    (by rfl)).2.2 (by decide)
